import Mathlib

/-!
Verification of the core logic of `picture-in-picture.js` (Better-Vivaldi-PnP).

The file shallowly embeds the PiP session lifecycle and eligibility engine of
the userscript: DOM video handles become a `Video` structure, the settings
object becomes `Settings`, and each relevant function of the `PIP` singleton
(`isVideoVisible_`, `isVideoEligible_`, `findBestVideoForAction`,
`findPlayingVideo_`, `findVideoAt`, the blacklist test, `pipClicked`,
`handleVisibilityChange_`, `setupMediaSession`, `removeMediaSession`,
`loadSettings_`, `saveSettings_`, and the `leavepictureinpicture` listener
management of the entry acknowledgment handler and `onPipExit`) becomes an
executable Lean definition translated clause by clause from the source.
Floating point quantities (rects, durations, opacity) are idealised as
rationals; the unknown (`NaN`) duration is `Option.none`.
-/

namespace PnP

/-- A DOM rect as returned by `getBoundingClientRect()`. The script reads
all six coordinates directly from the rect object (it never derives one
from another), so all six are fields; an actual `DOMRect` additionally
satisfies `right = left + width` and `bottom = top + height`, which no
claim needs. -/
structure Rect where
  left : ℚ
  top : ℚ
  width : ℚ
  height : ℚ
  right : ℚ
  bottom : ℚ
deriving DecidableEq

/-- A video element handle: identity (`===` comparison is by `id`), layout
rect, intrinsic size, duration (`none` models `NaN`/unknown), and playback
flags, as read by the script. -/
structure Video where
  id : Nat
  rect : Rect
  videoWidth : Nat
  videoHeight : Nat
  duration : Option ℚ
  paused : Bool
  ended : Bool
  readyState : Nat
deriving DecidableEq

/-- Intrinsic pixel area `videoWidth * videoHeight` used by the sorting
comparators. -/
def Video.area (v : Video) : Nat := v.videoWidth * v.videoHeight

/-- The window viewport, i.e. `window.innerWidth` / `window.innerHeight`. -/
structure Viewport where
  innerWidth : ℚ
  innerHeight : ℚ
deriving DecidableEq

/-- The `PIP.settings` object with its defaults' field types: integer fields
are the declared nonnegative-integer domains, `opacity` is an idealised
number, strings are stored as-is. -/
structure Settings where
  autoPip : Bool
  autoDelay : Nat
  blacklist : String
  position : String
  minDuration : Nat
  minWidth : Nat
  minHeight : Nat
  seekInterval : Nat
  opacity : ℚ
  shortcut : String
  hideButtonWhenActive : Bool
deriving DecidableEq

/-- The default settings literal of the script (`PIP.settings`). -/
def defaultSettings : Settings :=
  { autoPip := false
    autoDelay := 1000
    blacklist := "tiktok.com\nyoutube.com/shorts"
    position := "top-right"
    minDuration := 10
    minWidth := 200
    minHeight := 150
    seekInterval := 10
    opacity := 7/10
    shortcut := "Alt+P"
    hideButtonWhenActive := false }

/-- `PIP.isVideoVisible_`: positive-size rect whose rect intersects the
viewport (`rect.width > 0 && rect.height > 0 && rect.top < innerHeight &&
rect.bottom > 0 && rect.left < innerWidth && rect.right > 0`). -/
def isVideoVisible (vp : Viewport) (v : Video) : Bool :=
  v.rect.width > 0 && v.rect.height > 0 &&
    v.rect.top < vp.innerHeight && v.rect.bottom > 0 &&
    v.rect.left < vp.innerWidth && v.rect.right > 0

/-- `PIP.isVideoEligible_`: minimum dimensions, then visibility, then the
duration gate `video.duration > 0 && video.duration < minDuration` (false on
unknown duration, as every comparison with `NaN` is false). -/
def isVideoEligible (s : Settings) (vp : Viewport) (v : Video) : Bool :=
  if v.rect.width < (s.minWidth : ℚ) || v.rect.height < (s.minHeight : ℚ) then false
  else if !isVideoVisible vp v then false
  else if (match v.duration with
           | some d => decide (d > 0) && decide (d < (s.minDuration : ℚ))
           | none => false) then false
  else true

/-- The eligibility predicate as the specification words it: visible, rect at
least `minWidth x minHeight`, and duration unknown/0 or at least
`minDurationSeconds`. -/
def eligibleSpec (s : Settings) (vp : Viewport) (v : Video) : Prop :=
  isVideoVisible vp v = true ∧
    (s.minWidth : ℚ) ≤ v.rect.width ∧ (s.minHeight : ℚ) ≤ v.rect.height ∧
    (v.duration = none ∨ v.duration = some 0 ∨
      ∃ d, v.duration = some d ∧ (s.minDuration : ℚ) ≤ d)

/-- Stable pick of the first maximal-area element, matching
`list.sort((a, b) => b.area - a.area)[0]` under the stable sort of the
runtime (ties keep document order). -/
def bestByArea : List Video → Option Video
  | [] => none
  | v :: t =>
    match bestByArea t with
    | none => some v
    | some b => if b.area > v.area then some b else some v

/-- The candidate pool of `findBestVideoForAction`:
`readyState > 0 && !ended`. -/
def actionCandidates (vs : List Video) : List Video :=
  vs.filter (fun v => decide (v.readyState > 0) && !v.ended)

/-- The playing candidates of `findBestVideoForAction`
(candidates with `!paused`). -/
def playingCandidates (vs : List Video) : List Video :=
  (actionCandidates vs).filter (fun v => !v.paused)

/-- The paused fallback pool of `findBestVideoForAction`: candidates passing
`isVideoVisible_`. -/
def visibleCandidates (vp : Viewport) (vs : List Video) : List Video :=
  (actionCandidates vs).filter (fun v => isVideoVisible vp v)

/-- The non-hovered tail of `findBestVideoForAction`: prefer playing
candidates, else fall back to the largest visible (necessarily paused)
candidate. -/
def findBestFallback (vp : Viewport) (vs : List Video) : Option Video :=
  if (playingCandidates vs).length > 0 then bestByArea (playingCandidates vs)
  else bestByArea (visibleCandidates vp vs)

/-- `PIP.findBestVideoForAction`: hovered video first when it has not ended,
else the largest-area playing candidate, else the largest-area visible
candidate (all remaining candidates are paused there), else none. -/
def findBestVideoForAction (hovered : Option Video) (vp : Viewport)
    (vs : List Video) : Option Video :=
  match hovered with
  | some h => if !h.ended then some h else findBestFallback vp vs
  | none => findBestFallback vp vs

/-- `PIP.findPlayingVideo_`: largest-area video among
`!paused && !ended && readyState > 0`, else none. -/
def findPlayingVideo (vs : List Video) : Option Video :=
  bestByArea (vs.filter (fun v => !v.paused && !v.ended && decide (v.readyState > 0)))

/-- `PIP.findVideoAt`: the first video whose rect contains the point. -/
def findVideoAt (x y : ℚ) (vs : List Video) : Option Video :=
  vs.find? (fun v =>
    decide (x ≥ v.rect.left) && decide (y ≥ v.rect.top) &&
      decide (x ≤ v.rect.right) && decide (y ≤ v.rect.bottom))

/-- Target resolution of a manual `pipClicked(evt, forcedVideo)` call,
line for line: `forcedVideo || this.activeVideoForPipClick ||
(evt && this.findVideoAt(evt.clientX, evt.clientY))`. -/
def manualClickTarget (forced hoverTracked : Option Video)
    (evt : Option (ℚ × ℚ)) (vs : List Video) : Option Video :=
  (forced.orElse fun _ => hoverTracked).orElse
    fun _ => evt.bind fun p => findVideoAt p.1 p.2 vs

/-! ### Blacklist matching (the inlined test of `videoOver` and
`handleVisibilityChange_`) -/

/-- `String.prototype.split('\n')` on the character list. -/
def splitOnNL : List Char → List (List Char)
  | [] => [[]]
  | c :: t =>
    match splitOnNL t with
    | [] => [[]]
    | g :: gs => if c = '\n' then [] :: g :: gs else (c :: g) :: gs

/-- `String.prototype.trim()`: drop whitespace from both ends. -/
def trimChars (cs : List Char) : List Char :=
  ((cs.dropWhile Char.isWhitespace).reverse.dropWhile Char.isWhitespace).reverse

/-- Does `hay` start with `nee` (helper for the substring test)? -/
def startsWithSub : List Char → List Char → Bool
  | _, [] => true
  | [], _ :: _ => false
  | c :: cs, d :: ds => c == d && startsWithSub cs ds

/-- `String.prototype.includes`: `nee` occurs as a contiguous substring of
`hay`. -/
def containsSub (nee : List Char) : List Char → Bool
  | [] => startsWithSub [] nee
  | c :: t => startsWithSub (c :: t) nee || containsSub nee t

/-- `blacklist.split('\n').map(s => s.trim()).filter(s => s)`: the effective
blacklist entries. -/
def blockedDomains (blacklist : String) : List (List Char) :=
  ((splitOnNL blacklist.data).map trimChars).filter (fun s => s ≠ [])

/-- `blocked.some(domain => hostname.includes(domain))`: the blacklist test
as inlined in `videoOver` and `handleVisibilityChange_`. -/
def isBlocked (hostname blacklist : String) : Bool :=
  (blockedDomains blacklist).any (fun d => containsSub d hostname.data)

/-! ### The `pipClicked` action (effects and page mutation) -/

/-- Observable effects emitted by `pipClicked` and the deferred auto
trigger, in program order. -/
inductive Effect where
  | clearDisable (vid : Nat)
  | pauseAttempt (vid : Nat)
  | requestEntry (vid : Nat)
  | requestExit
  | toast (msg : String)
deriving DecidableEq

/-- The pause-other-videos loop of `pipClicked`: for every video `v` with
`v !== video && !v.paused && !v.ended`, `try { v.pause() } catch(_) {}`.
`pauseFails` marks videos whose `pause()` throws (the error is swallowed and
the loop continues). Returns the mutated page and the attempted pauses. -/
def pauseOthers (target : Nat) (pauseFails : Nat → Bool) (vs : List Video) :
    List Video × List Effect :=
  (vs.map fun v =>
      if v.id != target && !v.paused && !v.ended && !pauseFails v.id then
        { v with paused := true }
      else v,
   (vs.filter fun v => v.id != target && !v.paused && !v.ended).map
     fun v => Effect.pauseAttempt v.id)

/-- The synchronous part of `pipClicked` once a target video is resolved:
clear the disable flag, then either exit (target already the PiP element) or
pause the other playing videos and issue the entry request. -/
def pipClickedCore (target : Nat) (pipElement : Option Nat)
    (pauseFails : Nat → Bool) (vs : List Video) : List Video × List Effect :=
  if pipElement = some target then
    (vs, [Effect.clearDisable target, Effect.requestExit])
  else
    let pe := pauseOthers target pauseFails vs
    (pe.1, Effect.clearDisable target :: pe.2 ++ [Effect.requestEntry target])

/-! ### Media-session synchronization (`setupMediaSession` /
`removeMediaSession`) -/

/-- The eight named media-session actions of the platform capability. -/
inductive MSAction where
  | play
  | pause
  | stop
  | seekbackward
  | seekforward
  | seekto
  | previoustrack
  | nexttrack
deriving DecidableEq

/-- Defunctionalised action-handler closures installed by
`setupMediaSession`. -/
inductive MSHandler where
  | playH
  | pauseH
  | seekH (delta : ℚ)
deriving DecidableEq

/-- `MediaMetadata` record contents (title, artist, artwork srcs). -/
structure MediaMeta where
  title : String
  artist : String
  artwork : List String
deriving DecidableEq

/-- The media-session capability state: metadata plus one registered handler
slot per named action. -/
structure MSState where
  metadata : Option MediaMeta
  handlers : MSAction → Option MSHandler

/-- A media-session state with nothing registered. -/
def msEmpty : MSState := { metadata := none, handlers := fun _ => none }

/-- JavaScript `a || b` on strings (empty string is falsy). -/
def jsOrString (a b : String) : String := if a = "" then b else a

/-- The per-video inputs of `extractMetadata` (`video.title`,
`video.poster`). -/
structure MediaInfo where
  title : String
  poster : String
deriving DecidableEq

/-- `PIP.extractMetadata`: `video.title || document.title || 'Video'`,
artist is the hostname, artwork is the poster when nonempty. -/
def extractMetadata (info : MediaInfo) (docTitle hostname : String) :
    MediaMeta :=
  let aw := jsOrString info.poster ""
  { title := jsOrString info.title (jsOrString docTitle "Video")
    artist := hostname
    artwork := if aw = "" then [] else [aw] }

/-- `const seekDist = this.settings.seekInterval || 10` (0 is falsy). -/
def seekDistOf (s : Settings) : ℚ :=
  if s.seekInterval = 0 then 10 else (s.seekInterval : ℚ)

/-- `PIP.setupMediaSession`: when the capability exists, set the metadata and
install handlers for exactly the actions the source registers
(`play`, `pause`, `seekbackward`, `seekforward`); all other slots are left
as they were. -/
def setupMediaSession (avail : Bool) (info : MediaInfo)
    (docTitle hostname : String) (s : Settings) (ms : MSState) : MSState :=
  if !avail then ms
  else
    { metadata := some (extractMetadata info docTitle hostname)
      handlers := fun a =>
        match a with
        | .play => some .playH
        | .pause => some .pauseH
        | .seekbackward => some (.seekH (-(seekDistOf s)))
        | .seekforward => some (.seekH (seekDistOf s))
        | _ => ms.handlers a }

/-- `PIP.removeMediaSession`: when the capability exists, clear the metadata
(and nothing else). -/
def removeMediaSession (avail : Bool) (ms : MSState) : MSState :=
  if !avail then ms else { ms with metadata := none }

/-- Playback state of the video handle as acted on by the installed
handlers. -/
structure Playback where
  currentTime : ℚ
  duration : Option ℚ
  paused : Bool
deriving DecidableEq

/-- Semantics of the installed handler closures; the seek closure is
`video.currentTime = Math.min(Math.max(0, video.currentTime + delta),
video.duration || video.currentTime + delta)`. -/
def runHandler : MSHandler → Playback → Playback
  | .playH, p => { p with paused := false }
  | .pauseH, p => { p with paused := true }
  | .seekH delta, p =>
    { p with
      currentTime :=
        min (max 0 (p.currentTime + delta))
          (match p.duration with
           | some d => if d = 0 then p.currentTime + delta else d
           | none => p.currentTime + delta) }

/-! ### Session state and the `leavepictureinpicture` listener lifecycle -/

/-- The mutable fields of the `PIP` singleton that carry a session, plus the
multiset of `leavepictureinpicture` listeners currently attached to page
videos (pairs of video id and listener id; `nextListener` supplies fresh
listener identities for the closures created on each entry
acknowledgment). -/
structure SessState where
  activeVideoForPipClick : Option Nat
  lastPipElement : Option Nat
  onPipExitBound : Option Nat
  pipWindow : Option Nat
  attached : List (Nat × Nat)
  nextListener : Nat
  ms : MSState

/-- The initial state of the singleton (all session fields null). -/
def initSessState : SessState :=
  { activeVideoForPipClick := none
    lastPipElement := none
    onPipExitBound := none
    pipWindow := none
    attached := []
    nextListener := 0
    ms := msEmpty }

/-- The `.then` handler of a successful `requestPictureInPicture`: remove the
previously bound listener when both `lastPipElement` and `onPipExitBound`
are set, create and attach a fresh exit listener on the new PiP element,
record it, and set up the media session. -/
def entryAckStep (pipVideo : Nat) (info : MediaInfo)
    (docTitle hostname : String) (s : Settings) (pipWin : Nat)
    (st : SessState) : SessState :=
  let removed :=
    match st.lastPipElement, st.onPipExitBound with
    | some w, some l => st.attached.filter (fun p => p ≠ (w, l))
    | _, _ => st.attached
  { st with
    pipWindow := some pipWin
    attached := removed ++ [(pipVideo, st.nextListener)]
    onPipExitBound := some st.nextListener
    lastPipElement := some pipVideo
    nextListener := st.nextListener + 1
    ms := setupMediaSession true info docTitle hostname s st.ms }

/-- `PIP.onPipExit`: clear the media-session metadata and null the
active-video, bound-callback and window references. No
`removeEventListener` call appears in this handler. -/
def onPipExitStep (st : SessState) : SessState :=
  { st with
    ms := removeMediaSession true st.ms
    activeVideoForPipClick := none
    onPipExitBound := none
    pipWindow := none }

/-- Dispatch of a `leavepictureinpicture` event on video `v`: every listener
currently attached to `v` runs the exit handler. -/
def pipLeaveStep (v : Nat) (st : SessState) : SessState :=
  (st.attached.filter (fun p => p.1 == v)).foldl
    (fun acc _ => onPipExitStep acc) st

/-- Session-level events: the native layer acknowledges an entry for a
video, or the active video leaves picture-in-picture. -/
inductive SessEvent where
  | entryAck (vid : Nat)
  | pipLeave (vid : Nat)

/-- One session event applied to the singleton state. -/
def sessStep (info : MediaInfo) (docTitle hostname : String) (s : Settings) :
    SessState → SessEvent → SessState
  | st, .entryAck v => entryAckStep v info docTitle hostname s 0 st
  | st, .pipLeave v => pipLeaveStep v st

/-- Run a list of session events from the initial state (fixed ambient
metadata inputs). -/
def runSession (evs : List SessEvent) : SessState :=
  evs.foldl
    (sessStep { title := "", poster := "" } "Doc" "example.com"
      defaultSettings)
    initSessState

/-! ### The full `pipClicked` call with the asynchronous entry outcome -/

/-- Resolution of the `requestPictureInPicture()` promise. -/
inductive EntryOutcome where
  | accepted (win : Nat)
  | rejected
deriving DecidableEq

/-- `pipClicked` with its asynchronous continuation: the synchronous core
runs first; on acceptance the `.then` handler fires, on rejection the
`.catch` handler logs and shows a toast — the rejection never escapes, so
the result is always `.ok` (an uncaught rejection would be `.error`). -/
def pipClickedRun (target : Nat) (outcome : EntryOutcome) (info : MediaInfo)
    (docTitle hostname : String) (s : Settings) (pauseFails : Nat → Bool)
    (vs : List Video) (pipElement : Option Nat) (st : SessState) :
    Except String (SessState × List Video × List Effect) :=
  let core := pipClickedCore target pipElement pauseFails vs
  if pipElement = some target then .ok (st, core.1, core.2)
  else
    match outcome with
    | .accepted w =>
      .ok (entryAckStep target info docTitle hostname s w st, core.1, core.2)
    | .rejected =>
      .ok (st, core.1,
        core.2 ++ [Effect.toast "PiP not available for this video"])

/-- Session state of a `pipClickedRun` result (initial state on the
impossible error branch). -/
def sessOf (r : Except String (SessState × List Video × List Effect)) :
    SessState :=
  match r with
  | .ok x => x.1
  | .error _ => initSessState

/-- Effect trace of a `pipClickedRun` result. -/
def effsOf (r : Except String (SessState × List Video × List Effect)) :
    List Effect :=
  match r with
  | .ok x => x.2.2
  | .error _ => []

/-- Did the call complete without an uncaught rejection? -/
def okB (r : Except String (SessState × List Video × List Effect)) : Bool :=
  match r with
  | .ok _ => true
  | .error _ => false

/-- The boss-key action once the shortcut combo matched
(`handleGlobalKey_` lines after the combo comparison): resolve the best
video, store it in `activeVideoForPipClick`, and call `pipClicked`. -/
def bossKeyFlow (hovered : Option Video) (vp : Viewport)
    (outcome : EntryOutcome) (info : MediaInfo) (docTitle hostname : String)
    (s : Settings) (pauseFails : Nat → Bool) (vs : List Video)
    (pipElement : Option Nat) (st : SessState) :
    Except String (SessState × List Video × List Effect) :=
  match findBestVideoForAction hovered vp vs with
  | none => .ok (st, vs, [Effect.toast "No compatible video stream found."])
  | some target =>
    pipClickedRun target.id outcome info docTitle hostname s pauseFails vs
      pipElement { st with activeVideoForPipClick := some target.id }

/-! ### Auto-PiP visibility handling and the deferred recheck -/

/-- Page-level facts read by the visibility handler and the deferred
recheck. -/
structure PageState where
  hidden : Bool
  pipElement : Option Nat
deriving DecidableEq

/-- The `setTimeout` callback scheduled by `handleVisibilityChange_`:
`if (document.hidden && !video.paused && !document.pictureInPictureElement)`
then call `pipClicked(null, video)`; otherwise do nothing. `v` carries the
candidate video's state at fire time. -/
def deferredRecheck (v : Video) (pauseFails : Nat → Bool) (vs : List Video)
    (st : PageState) : List Effect :=
  if st.hidden && !v.paused && st.pipElement.isNone then
    (pipClickedCore v.id st.pipElement pauseFails vs).2
  else []

/-- What `handleVisibilityChange_` decides to do. -/
inductive VisAction where
  | noAction
  | schedule (vid : Nat) (fireAt : Nat)
  | exitRequest
deriving DecidableEq

/-- `PIP.handleVisibilityChange_`: gated on `autoPip` and the blacklist;
when hidden, pick the playing video, apply the duration gate, and schedule
the recheck after `autoDelay`; when visible with an active PiP element,
request exit. -/
def handleVisibilityChange (s : Settings) (hostname : String)
    (vs : List Video) (st : PageState) (now : Nat) : VisAction :=
  if !s.autoPip then .noAction
  else if isBlocked hostname s.blacklist then .noAction
  else if st.hidden then
    match findPlayingVideo vs with
    | none => .noAction
    | some v =>
      if (match v.duration with
          | some d => decide (d > 0) && decide (d < (s.minDuration : ℚ))
          | none => false) then .noAction
      else if !v.paused && !v.ended then .schedule v.id (now + s.autoDelay)
      else .noAction
  else if st.pipElement.isSome then .exitRequest
  else .noAction

/-- Is the page hidden at time `t`, given the times of the visibility
toggles of a page that starts visible? -/
def hiddenAt (toggles : List Nat) (t : Nat) : Bool :=
  (toggles.countP fun x => decide (x ≤ t)) % 2 == 1

/-! ### Settings persistence (`saveSettings_` / `loadSettings_`)

`localStorage` holds strings; numbers cross the boundary through
`String(...)` and `parseInt`/`parseFloat`. Decimal printing and parsing are
modelled on character lists (structural recursion so everything evaluates);
an unknown (`NaN`) parse is not representable in the integer-valued model
and is unreachable from `saveSettings_` images, where the fallback value 0
below is dead code. -/

/-- The decimal digit character for a digit value below 10. -/
def digitChar (d : Nat) : Char := Char.ofNat (48 + d)

/-- Digit value of a decimal digit character. -/
def charVal (c : Char) : Nat := c.toNat - 48

/-- Little-endian decimal digits of `n`, fuel-recursive so that it reduces
definitionally; agrees with `Nat.digits 10 n` when `n ≤ fuel`. -/
def natDigitsAux : Nat → Nat → List Nat
  | 0, _ => []
  | _ + 1, 0 => []
  | fuel + 1, n + 1 => (n + 1) % 10 :: natDigitsAux fuel ((n + 1) / 10)

/-- `String(n)` for a nonnegative integer, as a character list. -/
def natToChars (n : Nat) : List Char :=
  if n = 0 then ['0'] else ((natDigitsAux n n).reverse).map digitChar

/-- Value of a big-endian decimal digit-character list. -/
def digitsToNat (cs : List Char) : Nat :=
  Nat.ofDigits 10 ((cs.map charVal).reverse)

/-- `parseInt(s, 10)` on the nonnegative decimal strings produced by
`String(...)`: the longest digit prefix, `none` (`NaN`) when there is
none. -/
def jsParseIntChars (cs : List Char) : Option Nat :=
  let ds := cs.takeWhile Char.isDigit
  if ds = [] then none else some (digitsToNat ds)

/-- Fractional decimal digits of `q` (intended for `0 ≤ q < 1`): repeatedly
take `⌊q * 10⌋`; stops at 0 or when the fuel runs out. -/
def fracDigits : Nat → ℚ → List Nat
  | 0, _ => []
  | fuel + 1, q =>
    if q = 0 then []
    else (⌊q * 10⌋).toNat :: fracDigits fuel (q * 10 - ⌊q * 10⌋)

/-- Fuel bound on printed fractional digits (any decimal the script can
store has far fewer). -/
def fracFuel : Nat := 32

/-- `String(q)` for a nonnegative decimal number: integer part, and the
fractional digits after a point when the fractional part is nonzero. -/
def ratToChars (q : ℚ) : List Char :=
  let fr := q - ⌊q⌋
  if fr = 0 then natToChars (⌊q⌋).toNat
  else natToChars (⌊q⌋).toNat ++ '.' :: (fracDigits fracFuel fr).map digitChar

/-- Value of a big-endian fractional digit-character list. -/
def fracValue (cs : List Char) : ℚ :=
  cs.foldr (fun c acc => ((charVal c : ℚ) + acc) / 10) 0

/-- `parseFloat` on the nonnegative decimal strings produced by
`String(...)`: digit prefix, then an optional point and fractional
digits. -/
def jsParseFloatChars (cs : List Char) : ℚ :=
  let ip := cs.takeWhile Char.isDigit
  match cs.dropWhile Char.isDigit with
  | '.' :: fr => (digitsToNat ip : ℚ) + fracValue (fr.takeWhile Char.isDigit)
  | _ => (digitsToNat ip : ℚ)

/-- `String(n : int)`. -/
def jsStringOfNat (n : Nat) : String := ⟨natToChars n⟩

/-- `String(b : bool)`. -/
def jsStringOfBool (b : Bool) : String := if b then "true" else "false"

/-- `String(q : number)`. -/
def jsStringOfRat (q : ℚ) : String := ⟨ratToChars q⟩

/-- `parseInt(s, 10)`. -/
def jsParseIntStr (s : String) : Option Nat := jsParseIntChars s.data

/-- `parseFloat(s)`. -/
def jsParseFloatStr (s : String) : ℚ := jsParseFloatChars s.data

/-- The eleven `localStorage` slots used by the script (a missing key reads
as `null`). -/
structure StoredSettings where
  autoPip : Option String
  autoDelay : Option String
  blacklist : Option String
  position : Option String
  minDuration : Option String
  seekInterval : Option String
  opacity : Option String
  shortcut : Option String
  minWidth : Option String
  minHeight : Option String
  hideButtonWhenActive : Option String
deriving DecidableEq

/-- `PIP.saveSettings_`: every field written through `String(...)` (the
blacklist, position and shortcut strings are stored raw). -/
def saveSettings (s : Settings) : StoredSettings :=
  { autoPip := some (jsStringOfBool s.autoPip)
    autoDelay := some (jsStringOfNat s.autoDelay)
    blacklist := some s.blacklist
    position := some s.position
    minDuration := some (jsStringOfNat s.minDuration)
    seekInterval := some (jsStringOfNat s.seekInterval)
    opacity := some (jsStringOfRat s.opacity)
    shortcut := some s.shortcut
    minWidth := some (jsStringOfNat s.minWidth)
    minHeight := some (jsStringOfNat s.minHeight)
    hideButtonWhenActive := some (jsStringOfBool s.hideButtonWhenActive) }

/-- `PIP.loadSettings_` applied over the current settings object: most keys
are taken when not `null`, but `position` and `shortcut` are guarded by
truthiness (`if (savedPos)` / `if (savedShortcut)`), so an empty stored
string is ignored. -/
def loadSettings (st : StoredSettings) (cur : Settings) : Settings :=
  { autoPip :=
      match st.autoPip with
      | none => cur.autoPip
      | some v => v == "true"
    autoDelay :=
      match st.autoDelay with
      | none => cur.autoDelay
      | some v => (jsParseIntStr v).getD 0
    minDuration :=
      match st.minDuration with
      | none => cur.minDuration
      | some v => (jsParseIntStr v).getD 0
    seekInterval :=
      match st.seekInterval with
      | none => cur.seekInterval
      | some v => (jsParseIntStr v).getD 0
    opacity :=
      match st.opacity with
      | none => cur.opacity
      | some v => jsParseFloatStr v
    blacklist :=
      match st.blacklist with
      | none => cur.blacklist
      | some v => v
    position :=
      match st.position with
      | none => cur.position
      | some v => if v = "" then cur.position else v
    shortcut :=
      match st.shortcut with
      | none => cur.shortcut
      | some v => if v = "" then cur.shortcut else v
    minWidth :=
      match st.minWidth with
      | none => cur.minWidth
      | some v => (jsParseIntStr v).getD 0
    minHeight :=
      match st.minHeight with
      | none => cur.minHeight
      | some v => (jsParseIntStr v).getD 0
    hideButtonWhenActive :=
      match st.hideButtonWhenActive with
      | none => cur.hideButtonWhenActive
      | some v => v == "true" }

/-! ### Concrete fixtures used by the claims -/

/-- A 1000x800 viewport. -/
def vpEx : Viewport := { innerWidth := 1000, innerHeight := 800 }

/-- A visible on-screen rect. -/
def rectEx : Rect :=
  { left := 0, top := 0, width := 640, height := 360,
    right := 640, bottom := 360 }

/-- Hovered, paused, not-ended video of small intrinsic area. -/
def hEx : Video :=
  { id := 1, rect := rectEx, videoWidth := 320, videoHeight := 180
    duration := some 100, paused := true, ended := false, readyState := 4 }

/-- A playing video of large intrinsic area. -/
def pEx : Video :=
  { id := 2, rect := rectEx, videoWidth := 1920, videoHeight := 1080
    duration := some 100, paused := false, ended := false, readyState := 4 }

/-- Playing video of intrinsic area 100x100. -/
def vPlay100 : Video :=
  { id := 3, rect := rectEx, videoWidth := 100, videoHeight := 100
    duration := some 100, paused := false, ended := false, readyState := 4 }

/-- Playing video of intrinsic area 200x200. -/
def vPlay200 : Video :=
  { id := 4, rect := rectEx, videoWidth := 200, videoHeight := 200
    duration := some 100, paused := false, ended := false, readyState := 4 }

/-- Playing video of intrinsic area 50x50. -/
def vPlay50 : Video :=
  { id := 5, rect := rectEx, videoWidth := 50, videoHeight := 50
    duration := some 100, paused := false, ended := false, readyState := 4 }

/-- A 300x300 on-screen rect. -/
def rect300 : Rect :=
  { left := 0, top := 0, width := 300, height := 300,
    right := 300, bottom := 300 }

/-- A 199x300 on-screen rect. -/
def rect199 : Rect :=
  { left := 0, top := 0, width := 199, height := 300,
    right := 199, bottom := 300 }

/-- Paused, visible video of intrinsic area 300x300. -/
def vPaused300 : Video :=
  { id := 6, rect := rect300, videoWidth := 300, videoHeight := 300
    duration := some 100, paused := true, ended := false, readyState := 4 }

/-- The playing eligible candidate of the auto-trigger scenario. -/
def vAuto : Video :=
  { id := 7, rect := rectEx, videoWidth := 1280, videoHeight := 720
    duration := some 300, paused := false, ended := false, readyState := 4 }

/-- Settings of the auto-trigger scenario: `autoPip` on, 1000 ms delay,
empty blacklist. -/
def sAuto : Settings :=
  { defaultSettings with autoPip := true, autoDelay := 1000, blacklist := "" }

/-- One full auto-trigger run: the page becomes hidden at time 0 (this is
the first toggle), `handleVisibilityChange_` runs and may schedule the
deferred recheck; the recheck fires `autoDelay` later against the
visibility state determined by the remaining toggles, with the candidate
still playing and no session active. Returns whether an entry request is
issued. -/
def scenarioSessionStarts (toggles : List Nat) : Bool :=
  match handleVisibilityChange sAuto "example.com" [vAuto]
      { hidden := hiddenAt toggles 0, pipElement := none } 0 with
  | .schedule vid fireAt =>
    (deferredRecheck vAuto (fun _ => false) [vAuto]
        { hidden := hiddenAt toggles fireAt, pipElement := none }).contains
      (Effect.requestEntry vid)
  | _ => false

/-- Eligibility fixture: a 199x300 rect with duration 20. -/
def v199 : Video :=
  { id := 11, rect := rect199
    videoWidth := 199, videoHeight := 300
    duration := some 20, paused := false, ended := false, readyState := 4 }

/-- Eligibility fixture: a 300x300 rect with duration 5. -/
def v300d5 : Video :=
  { id := 12, rect := rect300
    videoWidth := 300, videoHeight := 300
    duration := some 5, paused := false, ended := false, readyState := 4 }

/-- Eligibility fixture: a 300x300 rect with duration 20. -/
def v300 : Video :=
  { id := 13, rect := rect300
    videoWidth := 300, videoHeight := 300
    duration := some 20, paused := false, ended := false, readyState := 4 }

/-- Eligibility fixture: a 300x300 rect with unknown duration. -/
def v300unk : Video :=
  { id := 14, rect := rect300
    videoWidth := 300, videoHeight := 300
    duration := none, paused := false, ended := false, readyState := 4 }

/-- No hovered video, or the hovered video has ended (the cases in which
`findBestVideoForAction` falls through to the ranking rule). -/
def hoverMiss (hov : Option Video) : Prop :=
  ∀ h, hov = some h → h.ended = true

/-- Ambient metadata inputs used by concrete session runs. -/
def mInfoEx : MediaInfo := { title := "", poster := "" }

/-- A settings snapshot whose shortcut has been cleared by the user. -/
def sEmptyShortcut : Settings := { defaultSettings with shortcut := "" }

/-- The boss-key flow of the rejection scenario: idle state, one playing
video, entry request rejected by the native layer. -/
def c10rejected : Except String (SessState × List Video × List Effect) :=
  bossKeyFlow none vpEx .rejected mInfoEx "Doc" "example.com"
    defaultSettings (fun _ => false) [pEx] none initSessState

/-! ## Helper lemmas -/

lemma bestByArea_cons_ne_none (v : Video) (t : List Video) :
    bestByArea (v :: t) ≠ none := by
  simp only [bestByArea]
  cases bestByArea t with
  | none => simp
  | some b => by_cases hgt : v.area < b.area <;> simp [hgt]

lemma bestByArea_eq_none {l : List Video} : bestByArea l = none ↔ l = [] := by
  cases l with
  | nil => simp [bestByArea]
  | cons v t => exact iff_of_false (bestByArea_cons_ne_none v t) (by simp)

lemma bestByArea_spec {l : List Video} {b : Video} (h : bestByArea l = some b) :
    b ∈ l ∧ ∀ v ∈ l, v.area ≤ b.area := by
  induction l generalizing b with
  | nil => cases h
  | cons v t ih =>
    cases ht : bestByArea t with
    | none =>
      have ht' : t = [] := bestByArea_eq_none.mp ht
      subst ht'
      simp only [bestByArea] at h
      cases h
      simp
    | some b' =>
      simp only [bestByArea, ht] at h
      obtain ⟨hb'm, hb'b⟩ := ih ht
      by_cases hgt : b'.area > v.area
      · rw [if_pos hgt] at h
        cases h
        refine ⟨List.mem_cons_of_mem _ hb'm, ?_⟩
        intro w hw
        rcases List.mem_cons.mp hw with hw | hw
        · subst hw; exact le_of_lt hgt
        · exact hb'b w hw
      · rw [if_neg hgt] at h
        cases h
        refine ⟨List.mem_cons_self _ _, ?_⟩
        intro w hw
        rcases List.mem_cons.mp hw with hw | hw
        · subst hw; exact le_refl _
        · exact le_trans (hb'b w hw) (Nat.le_of_not_lt hgt)

lemma bestByArea_isSome {l : List Video} (h : l ≠ []) :
    ∃ b, bestByArea l = some b := by
  cases hb : bestByArea l with
  | none => exact absurd (bestByArea_eq_none.mp hb) h
  | some b => exact ⟨b, rfl⟩

lemma findBest_hoverMiss {hov : Option Video} (hm : hoverMiss hov)
    (vp : Viewport) (vs : List Video) :
    findBestVideoForAction hov vp vs = findBestFallback vp vs := by
  cases hov with
  | none => rfl
  | some h =>
    have he := hm h rfl
    simp [findBestVideoForAction, he]

lemma playingCandidates_eq_playingFilter (vs : List Video) :
    playingCandidates vs =
      vs.filter (fun v => !v.paused && !v.ended && decide (v.readyState > 0)) := by
  unfold playingCandidates actionCandidates
  rw [List.filter_filter]
  apply List.filter_congr
  intro v _
  cases v.paused <;> cases v.ended <;> simp

lemma startsWithSub_iff (nee : List Char) :
    ∀ hay, startsWithSub hay nee = true ↔ ∃ t, hay = nee ++ t := by
  induction nee with
  | nil =>
    intro hay
    simp only [startsWithSub, List.nil_append]
    exact ⟨fun _ => ⟨hay, rfl⟩, fun _ => trivial⟩
  | cons d ds ih =>
    intro hay
    cases hay with
    | nil =>
      simp only [startsWithSub]
      constructor
      · intro h; cases h
      · rintro ⟨t, h⟩; cases h
    | cons c cs =>
      simp only [startsWithSub, Bool.and_eq_true, beq_iff_eq, ih cs]
      constructor
      · rintro ⟨rfl, t, rfl⟩; exact ⟨t, rfl⟩
      · rintro ⟨t, h⟩
        injection h with h1 h2
        exact ⟨h1, t, h2⟩

lemma containsSub_iff (nee hay : List Char) :
    containsSub nee hay = true ↔ ∃ p q, hay = p ++ nee ++ q := by
  induction hay with
  | nil =>
    simp only [containsSub, startsWithSub_iff]
    constructor
    · rintro ⟨t, h⟩
      rcases List.append_eq_nil.mp h.symm with ⟨h1, h2⟩
      exact ⟨[], [], by simp [h1]⟩
    · rintro ⟨p, q, h⟩
      rcases List.append_eq_nil.mp h.symm with ⟨h1, h2⟩
      rcases List.append_eq_nil.mp h1 with ⟨h3, h4⟩
      exact ⟨[], by simp [h4]⟩
  | cons c t ih =>
    simp only [containsSub, Bool.or_eq_true, startsWithSub_iff, ih]
    constructor
    · rintro (⟨q, hq⟩ | ⟨p, q, hpq⟩)
      · exact ⟨[], q, by simpa using hq⟩
      · exact ⟨c :: p, q, by simp [hpq]⟩
    · rintro ⟨p, q, h⟩
      cases p with
      | nil => exact Or.inl ⟨q, by simpa using h⟩
      | cons a p' =>
        right
        injection h with h1 h2
        subst h1
        exact ⟨p', q, h2⟩

/-! ## Claims -/

/-- C6: `findBestVideoForAction` prefers a non-ended hovered video; else the
largest-intrinsic-area playing candidate; else the largest-area visible
(paused) candidate; else none. Two playing videos of areas 100x100 and
200x200 give the 200x200 one, and a playing 50x50 beats a paused-visible
300x300. -/
theorem pip_C6 :
    (∀ (vp : Viewport) (vs : List Video) (h : Video), h.ended = false →
        findBestVideoForAction (some h) vp vs = some h) ∧
    (∀ (vp : Viewport) (vs : List Video) (hov : Option Video),
        hoverMiss hov → playingCandidates vs ≠ [] →
        ∃ b, findBestVideoForAction hov vp vs = some b ∧
          b ∈ playingCandidates vs ∧
          ∀ v ∈ playingCandidates vs, v.area ≤ b.area) ∧
    (∀ (vp : Viewport) (vs : List Video) (hov : Option Video),
        hoverMiss hov → playingCandidates vs = [] →
        visibleCandidates vp vs ≠ [] →
        ∃ b, findBestVideoForAction hov vp vs = some b ∧
          b ∈ visibleCandidates vp vs ∧
          ∀ v ∈ visibleCandidates vp vs, v.area ≤ b.area) ∧
    (∀ (vp : Viewport) (vs : List Video) (hov : Option Video),
        hoverMiss hov → playingCandidates vs = [] →
        visibleCandidates vp vs = [] →
        findBestVideoForAction hov vp vs = none) ∧
    findBestVideoForAction none vpEx [vPlay100, vPlay200] = some vPlay200 ∧
    findBestVideoForAction none vpEx [vPlay50, vPaused300] = some vPlay50 := by
  refine ⟨?_, ?_, ?_, ?_, by decide, by decide⟩
  · intro vp vs h he
    simp [findBestVideoForAction, he]
  · intro vp vs hov hm hne
    rw [findBest_hoverMiss hm]
    unfold findBestFallback
    rw [if_pos (List.length_pos.mpr hne)]
    obtain ⟨b, hb⟩ := bestByArea_isSome hne
    obtain ⟨hmem, hmax⟩ := bestByArea_spec hb
    exact ⟨b, hb, hmem, hmax⟩
  · intro vp vs hov hm hp hne
    rw [findBest_hoverMiss hm]
    unfold findBestFallback
    rw [if_neg (by simp [hp])]
    obtain ⟨b, hb⟩ := bestByArea_isSome hne
    obtain ⟨hmem, hmax⟩ := bestByArea_spec hb
    exact ⟨b, hb, hmem, hmax⟩
  · intro vp vs hov hm hp hv
    rw [findBest_hoverMiss hm]
    unfold findBestFallback
    rw [if_neg (by simp [hp])]
    exact bestByArea_eq_none.mpr hv

/-- C6 witness: the hovered-video clause applied at a concrete input. -/
theorem pip_C6_witness :
    findBestVideoForAction (some hEx) vpEx [] = some hEx :=
  pip_C6.1 vpEx [] hEx rfl

/-- C4 counterexample: with a hovered (paused, not ended) video and a larger
playing video on the page, the keyboard-shortcut resolver
(`findBestVideoForAction`) and the auto-trigger resolver
(`findPlayingVideo_`) pick different targets, so the three trigger paths do
not share one ranking function. -/
theorem pip_C4_cex :
    findBestVideoForAction (some hEx) vpEx [hEx, pEx] ≠
      findPlayingVideo [hEx, pEx] := by decide

/-- C4 amended: the keyboard-shortcut resolver and the auto-trigger resolver
agree whenever no (non-ended) video is hovered and at least one candidate is
playing; outside that overlap the paths differ (the shortcut prefers the
hovered video and falls back to paused visible candidates, the auto path
considers only playing videos, and the manual click resolves the
hovered/under-cursor video instead of the ranking rule). -/
theorem pip_C4 :
    ∀ (vp : Viewport) (vs : List Video) (hov : Option Video),
      hoverMiss hov → playingCandidates vs ≠ [] →
      findBestVideoForAction hov vp vs = findPlayingVideo vs := by
  intro vp vs hov hm hne
  rw [findBest_hoverMiss hm]
  unfold findBestFallback findPlayingVideo
  rw [if_pos (List.length_pos.mpr hne), playingCandidates_eq_playingFilter]

/-- C4 witness: path agreement at a concrete page state. -/
theorem pip_C4_witness :
    findBestVideoForAction none vpEx [pEx] = findPlayingVideo [pEx] :=
  pip_C4 vpEx [pEx] none (fun h hh => nomatch hh) (by decide)

/-- C5: on nonnegative durations, `isVideoEligible_` holds iff the video is
visible, at least `minWidth x minHeight`, and its duration is unknown/0 or
at least `minDuration`; with `minWidth = 200`, `minHeight = 150`,
`minDuration = 10` (the default settings), a 199x300 rect with duration 20
is never eligible and a 300x300 rect with duration 5 is never eligible
(whatever the remaining settings, position and viewport), while the
on-screen 300x300 fixtures with duration 20 or unknown duration are
eligible. -/
theorem pip_C5 :
    (∀ (s : Settings) (vp : Viewport) (v : Video),
      (∀ d, v.duration = some d → 0 ≤ d) →
      (isVideoEligible s vp v = true ↔ eligibleSpec s vp v)) ∧
    (∀ (s : Settings) (vp : Viewport) (v : Video),
      s.minWidth = 200 → v.rect.width = 199 →
      isVideoEligible s vp v = false) ∧
    (∀ (s : Settings) (vp : Viewport) (v : Video),
      s.minDuration = 10 → v.duration = some 5 →
      isVideoEligible s vp v = false) ∧
    isVideoEligible defaultSettings vpEx v199 = false ∧
    isVideoEligible defaultSettings vpEx v300d5 = false ∧
    isVideoEligible defaultSettings vpEx v300 = true ∧
    isVideoEligible defaultSettings vpEx v300unk = true := by
  refine ⟨?_, ?_, ?_, by decide, by decide, by decide, by decide⟩
  case refine_2 =>
    intro s vp v hsw hw
    unfold isVideoEligible
    have h1 : (v.rect.width < (s.minWidth : ℚ) ||
        v.rect.height < (s.minHeight : ℚ)) = true := by
      rw [hw, hsw]
      norm_num
    rw [if_pos h1]
  case refine_3 =>
    intro s vp v hsd hd
    unfold isVideoEligible
    split_ifs with h1 h2 h3
    · rfl
    · rfl
    · rfl
    · exfalso
      rw [hd, hsd] at h3
      exact h3 (by decide)
  intro s vp v hd
  unfold isVideoEligible eligibleSpec
  split_ifs with h1 h2 h3
  · simp only [Bool.or_eq_true, decide_eq_true_eq] at h1
    simp only [false_iff]
    rintro ⟨hv, hw, hh, _⟩
    rcases h1 with h1 | h1
    · exact absurd hw (not_le.mpr h1)
    · exact absurd hh (not_le.mpr h1)
  · simp only [Bool.not_eq_true'] at h2
    simp only [false_iff]
    rintro ⟨hv, _, _, _⟩
    rw [h2] at hv
    cases hv
  · simp only [false_iff]
    rintro ⟨_, _, _, hdur⟩
    rcases hdur' : v.duration with _ | d
    · rw [hdur'] at h3
      simp at h3
    · rw [hdur'] at h3
      simp only [gt_iff_lt, Bool.and_eq_true, decide_eq_true_eq] at h3
      rcases hdur with h | h | ⟨d', hd', hmin⟩
      · rw [hdur'] at h; cases h
      · rw [hdur'] at h
        injection h with h
        rw [h] at h3
        exact absurd h3.1 (lt_irrefl 0)
      · rw [hdur'] at hd'
        injection hd' with hd'
        rw [← hd'] at hmin
        exact absurd h3.2 (not_lt.mpr hmin)
  · simp only [Bool.or_eq_true, decide_eq_true_eq, not_or, not_lt] at h1
    simp only [Bool.not_eq_true', Bool.not_eq_false] at h2
    simp only [true_iff]
    refine ⟨h2, h1.1, h1.2, ?_⟩
    rcases hdur' : v.duration with _ | d
    · exact Or.inl rfl
    · rw [hdur'] at h3
      simp only [gt_iff_lt, Bool.and_eq_true, decide_eq_true_eq, not_and,
        not_lt] at h3
      rcases eq_or_lt_of_le (hd d hdur') with h0 | h0
      · exact Or.inr (Or.inl (by rw [← h0]))
      · exact Or.inr (Or.inr ⟨d, rfl, h3 h0⟩)

/-- C5 witness: the predicate evaluated through the equivalence at the
eligible 300x300, duration-20 fixture. -/
theorem pip_C5_witness : isVideoEligible defaultSettings vpEx v300 = true :=
  (pip_C5.1 defaultSettings vpEx v300
      (fun d hd => by
        simp only [v300] at hd
        injection hd with hd
        rw [← hd]
        norm_num)).mpr
    ⟨by decide, by decide, by decide,
      Or.inr (Or.inr ⟨20, rfl, by decide⟩)⟩

/-- C7 counterexample: the claim asserts hostname `nottiktok.example.com`
is blocked by entry `tiktok.com`, but `tiktok.com` does not occur
contiguously in that hostname, so the substring test rejects it. -/
theorem pip_C7_cex : isBlocked "nottiktok.example.com" "tiktok.com" = false := by
  decide

/-- C7 amended: a hostname is blocked iff some trimmed nonempty
newline-separated blacklist entry occurs contiguously (case-as-given) in
it; `www.tiktok.com` and `nottiktok.com` are blocked by entry `tiktok.com`,
while `nottiktok.example.com` is not. -/
theorem pip_C7 :
    (∀ (hostname blacklist : String),
        isBlocked hostname blacklist = true ↔
          ∃ e ∈ blockedDomains blacklist, ∃ p q, hostname.data = p ++ e ++ q) ∧
    isBlocked "www.tiktok.com" "tiktok.com" = true ∧
    isBlocked "nottiktok.com" "tiktok.com" = true ∧
    isBlocked "nottiktok.example.com" "tiktok.com" = false := by
  refine ⟨?_, by decide, by decide, by decide⟩
  intro hostname blacklist
  unfold isBlocked
  rw [List.any_eq_true]
  constructor
  · rintro ⟨e, he, hc⟩
    exact ⟨e, he, (containsSub_iff e hostname.data).mp hc⟩
  · rintro ⟨e, he, hpq⟩
    exact ⟨e, he, (containsSub_iff e hostname.data).mpr hpq⟩

end PnP

namespace PnP

/-- C1: the exit-callback invariant fails in the code. After the entry
acknowledgment exactly one `leavepictureinpicture` listener is attached
(and the claim's entry half holds on this first trace), but after the exit
acknowledgment the listener attached on entry is still attached —
`onPipExit` nulls `onPipExitBound` without any `removeEventListener` — so
the count is 1 where the claim requires 0, and a subsequent re-entry on the
same video leaves two listeners attached where the claim requires at most
one at every point. The active-video reference is nulled as claimed. -/
theorem pip_C1_leak :
    (runSession [.entryAck 1]).attached = [(1, 0)] ∧
    (runSession [.entryAck 1, .pipLeave 1]).attached = [(1, 0)] ∧
    (runSession [.entryAck 1, .pipLeave 1]).activeVideoForPipClick = none ∧
    (runSession [.entryAck 1, .pipLeave 1, .entryAck 1]).attached =
      [(1, 0), (1, 1)] :=
  ⟨by decide, by decide, by decide, by decide⟩

/-- C2: when the target is not already the PiP element, every other playing
(not paused, not ended) video gets a pause attempt at a strictly earlier
position of the effect trace than the entry request, and — absent pause
failures — every other non-ended video is paused in the resulting page
state; when the target is the PiP element, the call emits only the
disable-flag clear and the exit request (no pause attempts) and leaves the
page untouched. -/
theorem pip_C2 :
    ∀ (target : Nat) (pipEl : Option Nat) (pf : Nat → Bool)
      (vs : List Video),
      (pipEl ≠ some target →
        (∀ v ∈ vs, v.id ≠ target → v.paused = false → v.ended = false →
          ∃ i j : Nat, i < j ∧
            (pipClickedCore target pipEl pf vs).2[i]? =
              some (Effect.pauseAttempt v.id) ∧
            (pipClickedCore target pipEl pf vs).2[j]? =
              some (Effect.requestEntry target)) ∧
        (∀ v ∈ (pipClickedCore target pipEl (fun _ => false) vs).1,
          v.id ≠ target → v.ended = false → v.paused = true)) ∧
      (pipEl = some target →
        (pipClickedCore target pipEl pf vs).2 =
          [Effect.clearDisable target, Effect.requestExit] ∧
        (pipClickedCore target pipEl pf vs).1 = vs) := by
  intro target pipEl pf vs
  constructor
  · intro hne
    have hcore2 : (pipClickedCore target pipEl pf vs).2 =
        Effect.clearDisable target :: ((pauseOthers target pf vs).2 ++
          [Effect.requestEntry target]) := by
      unfold pipClickedCore
      rw [if_neg hne]
      rfl
    constructor
    · intro v hv hid hp he
      have hvf : v ∈ vs.filter
          (fun v => v.id != target && !v.paused && !v.ended) :=
        List.mem_filter.mpr ⟨hv, by simp [hid, hp, he]⟩
      have hmem : Effect.pauseAttempt v.id ∈ (pauseOthers target pf vs).2 := by
        unfold pauseOthers
        exact List.mem_map_of_mem _ hvf
      obtain ⟨i, hi⟩ := List.mem_iff_getElem?.mp hmem
      have hlen : i < (pauseOthers target pf vs).2.length :=
        (List.getElem?_eq_some.mp hi).1
      refine ⟨i + 1, (pauseOthers target pf vs).2.length + 1, by omega, ?_, ?_⟩
      · rw [hcore2, List.getElem?_cons_succ, List.getElem?_append,
          if_pos hlen]
        exact hi
      · rw [hcore2, List.getElem?_cons_succ, List.getElem?_append,
          if_neg (by omega)]
        simp
    · intro v hv hid he
      have hv1 : (pipClickedCore target pipEl (fun _ => false) vs).1 =
          (pauseOthers target (fun _ => false) vs).1 := by
        unfold pipClickedCore
        rw [if_neg hne]
      rw [hv1] at hv
      unfold pauseOthers at hv
      simp only [List.mem_map] at hv
      obtain ⟨v0, hv0, hveq⟩ := hv
      by_cases hc : (v0.id != target && !v0.paused && !v0.ended &&
          !(fun _ => false) v0.id) = true
      · rw [if_pos hc] at hveq
        rw [← hveq]
      · rw [if_neg hc] at hveq
        rw [← hveq] at hid he ⊢
        have hc' : (v0.id != target && !v0.paused && !v0.ended &&
            !(fun _ => false) v0.id) = false := by
          cases hb : (v0.id != target && !v0.paused && !v0.ended &&
              !(fun _ => false) v0.id)
          · rfl
          · exact absurd hb hc
        simp only [Bool.not_false, Bool.and_true, Bool.and_eq_false_iff,
          bne_eq_false_iff_eq, Bool.not_eq_false'] at hc'
        rcases hc' with (hc' | hc') | hc'
        · exact absurd hc' hid
        · exact hc'
        · exact absurd hc' (by simp [he])
  · intro heq
    unfold pipClickedCore
    rw [if_pos heq]
    exact ⟨rfl, rfl⟩

/-- C2 witness: the exit branch applied at a concrete already-active
target. -/
theorem pip_C2_witness :
    (pipClickedCore 2 (some 2) (fun _ => false) [pEx]).2 =
      [Effect.clearDisable 2, Effect.requestExit] ∧
    (pipClickedCore 2 (some 2) (fun _ => false) [pEx]).1 = [pEx] :=
  (pip_C2 2 (some 2) (fun _ => false) [pEx]).2 rfl

/-- C3: the deferred recheck issues the entry request iff at fire time the
page is still hidden, the candidate is still playing (not paused), and no
PiP element is active; in the concrete 1000 ms scenario a visibility toggle
back at 999 ms prevents the session from starting, while staying hidden
through the delay starts one. -/
theorem pip_C3 :
    (∀ (v : Video) (pf : Nat → Bool) (vs : List Video) (st : PageState),
        Effect.requestEntry v.id ∈ deferredRecheck v pf vs st ↔
          (st.hidden = true ∧ v.paused = false ∧ st.pipElement = none)) ∧
    scenarioSessionStarts [0, 999] = false ∧
    scenarioSessionStarts [0] = true := by
  refine ⟨?_, by decide, by decide⟩
  intro v pf vs st
  unfold deferredRecheck
  by_cases hg : (st.hidden && !v.paused && st.pipElement.isNone) = true
  · rw [if_pos hg]
    simp only [Bool.and_eq_true, Bool.not_eq_true',
      Option.isNone_iff_eq_none] at hg
    obtain ⟨⟨hh, hp⟩, hn⟩ := hg
    constructor
    · intro _
      exact ⟨hh, hp, hn⟩
    · intro _
      unfold pipClickedCore
      rw [if_neg (by rw [hn]; simp)]
      exact List.mem_cons_of_mem _
        (List.mem_append_right _ (List.mem_singleton_self _))
  · rw [if_neg hg]
    constructor
    · intro h
      exact absurd h (List.not_mem_nil _)
    · rintro ⟨hh, hp, hn⟩
      exact absurd (by simp [hh, hp, hn]) hg

/-- C9 counterexample: `setupMediaSession` installs no handler for the
`stop` or `seekto` actions (the claim says all eight actions get handlers),
and after `removeMediaSession` the `play` handler installed by attach is
still registered (the claim says detach removes every installed
handler). -/
theorem pip_C9_cex :
    (setupMediaSession true mInfoEx "Doc" "example.com" defaultSettings
        msEmpty).handlers .stop = none ∧
    (setupMediaSession true mInfoEx "Doc" "example.com" defaultSettings
        msEmpty).handlers .seekto = none ∧
    (removeMediaSession true
        (setupMediaSession true mInfoEx "Doc" "example.com" defaultSettings
          msEmpty)).handlers .play = some .playH :=
  ⟨rfl, rfl, rfl⟩

/-- C9 amended: attach installs handlers for exactly four actions — play,
pause, seek-backward and seek-forward — with seek offsets equal to
`seekInterval` whenever it is nonzero (10 when it is 0); the remaining four
action slots are left untouched; attach sets the metadata; detach clears
only the metadata, leaving every installed handler in place. -/
theorem pip_C9 :
    ∀ (info : MediaInfo) (docTitle hostname : String) (s : Settings)
      (ms : MSState),
      (s.seekInterval ≠ 0 → seekDistOf s = (s.seekInterval : ℚ)) ∧
      (setupMediaSession true info docTitle hostname s ms).handlers .play =
        some .playH ∧
      (setupMediaSession true info docTitle hostname s ms).handlers .pause =
        some .pauseH ∧
      (setupMediaSession true info docTitle hostname s ms).handlers
          .seekbackward = some (.seekH (-(seekDistOf s))) ∧
      (setupMediaSession true info docTitle hostname s ms).handlers
          .seekforward = some (.seekH (seekDistOf s)) ∧
      (setupMediaSession true info docTitle hostname s ms).handlers .stop =
        ms.handlers .stop ∧
      (setupMediaSession true info docTitle hostname s ms).handlers .seekto =
        ms.handlers .seekto ∧
      (setupMediaSession true info docTitle hostname s ms).handlers
          .previoustrack = ms.handlers .previoustrack ∧
      (setupMediaSession true info docTitle hostname s ms).handlers
          .nexttrack = ms.handlers .nexttrack ∧
      (setupMediaSession true info docTitle hostname s ms).metadata =
        some (extractMetadata info docTitle hostname) ∧
      removeMediaSession true
          (setupMediaSession true info docTitle hostname s ms) =
        { setupMediaSession true info docTitle hostname s ms with
            metadata := none } := by
  intro info docTitle hostname s ms
  refine ⟨?_, rfl, rfl, rfl, rfl, rfl, rfl, rfl, rfl, rfl, rfl⟩
  intro h
  unfold seekDistOf
  rw [if_neg h]

/-- C9 witness: the seek-offset clause at the default settings. -/
theorem pip_C9_witness :
    seekDistOf defaultSettings = (defaultSettings.seekInterval : ℚ) :=
  (pip_C9 mInfoEx "Doc" "example.com" defaultSettings msEmpty).1 (by decide)

/-- C10 counterexample: a boss-key-triggered entry attempt on video 2 whose
native request is rejected is absorbed (the run completes without an
uncaught error), yet the resulting state still holds
`activeVideoForPipClick = some 2` — a retained reference to the attempted
target, where the claim requires that no reference to it remain. -/
theorem pip_C10_cex :
    okB c10rejected = true ∧
    (sessOf c10rejected).activeVideoForPipClick = some 2 := ⟨rfl, rfl⟩

/-- C10 amended: when the target is not already the PiP element, a rejected
entry request is caught and absorbed (the run always completes `.ok`), the
non-fatal toast is emitted, and the session state object is returned
exactly as it was before the attempt — so no session is established, but
whatever active-video reference the trigger path had stored (including one
to the attempted target) is retained rather than cleared. -/
theorem pip_C10 :
    ∀ (target : Nat) (info : MediaInfo) (docTitle hostname : String)
      (s : Settings) (pf : Nat → Bool) (vs : List Video)
      (pipEl : Option Nat) (st : SessState),
      pipEl ≠ some target →
      okB (pipClickedRun target .rejected info docTitle hostname s pf vs
          pipEl st) = true ∧
      sessOf (pipClickedRun target .rejected info docTitle hostname s pf vs
          pipEl st) = st ∧
      Effect.toast "PiP not available for this video" ∈
        effsOf (pipClickedRun target .rejected info docTitle hostname s pf
          vs pipEl st) := by
  intro target info docTitle hostname s pf vs pipEl st hne
  unfold pipClickedRun
  rw [if_neg hne]
  refine ⟨rfl, rfl, ?_⟩
  exact List.mem_append_right _ (List.mem_singleton_self _)

/-- C10 witness: the amended rejection behaviour at a concrete idle page. -/
theorem pip_C10_witness :
    okB (pipClickedRun 2 .rejected mInfoEx "Doc" "example.com"
        defaultSettings (fun _ => false) [pEx] none initSessState) = true ∧
    sessOf (pipClickedRun 2 .rejected mInfoEx "Doc" "example.com"
        defaultSettings (fun _ => false) [pEx] none initSessState) =
      initSessState ∧
    Effect.toast "PiP not available for this video" ∈
      effsOf (pipClickedRun 2 .rejected mInfoEx "Doc" "example.com"
        defaultSettings (fun _ => false) [pEx] none initSessState) :=
  pip_C10 2 mInfoEx "Doc" "example.com" defaultSettings (fun _ => false)
    [pEx] none initSessState (by decide)

end PnP

namespace PnP

/-! ## Round-trip lemmas for the persisted-settings model -/

lemma natDigitsAux_eq : ∀ (fuel n : Nat), n ≤ fuel →
    natDigitsAux fuel n = Nat.digits 10 n := by
  intro fuel
  induction fuel with
  | zero =>
    intro n hn
    interval_cases n
    simp [natDigitsAux]
  | succ fuel ih =>
    intro n hn
    cases n with
    | zero => simp [natDigitsAux]
    | succ n =>
      rw [natDigitsAux, ih ((n + 1) / 10) ?_,
        Nat.digits_def' (by norm_num : (1:Nat) < 10) (Nat.succ_pos n)]
      have := Nat.div_lt_self (Nat.succ_pos n) (by norm_num : (1:Nat) < 10)
      omega

lemma charVal_digitChar {d : Nat} (h : d < 10) : charVal (digitChar d) = d := by
  interval_cases d <;> decide

lemma isDigit_digitChar {d : Nat} (h : d < 10) :
    (digitChar d).isDigit = true := by
  interval_cases d <;> decide

lemma natDigitsAux_lt10 {n d : Nat} (hd : d ∈ natDigitsAux n n) : d < 10 := by
  rw [natDigitsAux_eq n n le_rfl] at hd
  exact Nat.digits_lt_base (by norm_num) hd

lemma natToChars_digits {n : Nat} : ∀ c ∈ natToChars n, c.isDigit = true := by
  intro c hc
  unfold natToChars at hc
  by_cases h0 : n = 0
  · rw [if_pos h0] at hc
    rcases List.mem_singleton.mp hc with rfl
    decide
  · rw [if_neg h0] at hc
    obtain ⟨d, hd, rfl⟩ := List.mem_map.mp hc
    exact isDigit_digitChar (natDigitsAux_lt10 (List.mem_reverse.mp hd))

lemma natToChars_ne_nil (n : Nat) : natToChars n ≠ [] := by
  unfold natToChars
  by_cases h0 : n = 0
  · rw [if_pos h0]; simp
  · rw [if_neg h0]
    simp only [ne_eq, List.map_eq_nil_iff, List.reverse_eq_nil_iff]
    rw [natDigitsAux_eq n n le_rfl]
    exact Nat.digits_ne_nil_iff_ne_zero.mpr h0

lemma digitsToNat_natToChars (n : Nat) : digitsToNat (natToChars n) = n := by
  unfold natToChars
  by_cases h0 : n = 0
  · rw [if_pos h0, h0]
    decide
  · rw [if_neg h0]
    unfold digitsToNat
    have hmap : ((natDigitsAux n n).reverse.map digitChar).map charVal =
        (natDigitsAux n n).reverse := by
      rw [List.map_map]
      have : ∀ d ∈ (natDigitsAux n n).reverse, (charVal ∘ digitChar) d = id d := by
        intro d hd
        exact charVal_digitChar (natDigitsAux_lt10 (List.mem_reverse.mp hd))
      rw [List.map_congr_left this, List.map_id]
    rw [hmap, List.reverse_reverse, natDigitsAux_eq n n le_rfl,
      Nat.ofDigits_digits]

lemma jsParseInt_natToChars (n : Nat) :
    jsParseIntChars (natToChars n) = some n := by
  unfold jsParseIntChars
  rw [List.takeWhile_eq_self_iff.mpr natToChars_digits,
    if_neg (natToChars_ne_nil n), digitsToNat_natToChars]

lemma takeWhile_append_stop {p : Char → Bool} {l1 l2 : List Char} {c : Char}
    (h1 : ∀ x ∈ l1, p x = true) (hc : p c = false) :
    (l1 ++ c :: l2).takeWhile p = l1 ∧
      (l1 ++ c :: l2).dropWhile p = c :: l2 := by
  induction l1 with
  | nil => simp [List.takeWhile_cons, List.dropWhile_cons, hc]
  | cons a t ih =>
    have ha := h1 a (List.mem_cons_self a t)
    obtain ⟨iht, ihd⟩ := ih (fun x hx => h1 x (List.mem_cons_of_mem a hx))
    simp only [List.cons_append, List.takeWhile_cons, List.dropWhile_cons, ha,
      if_true]
    exact ⟨by rw [iht], by rw [ihd]⟩

lemma floorDigit_lt10 {q : ℚ} (h0 : 0 ≤ q) (h1 : q < 1) :
    (⌊q * 10⌋).toNat < 10 := by
  have hever : ⌊q * 10⌋ < 10 := by
    have : q * 10 < 10 := by linarith
    exact Int.floor_lt.mpr (by exact_mod_cast this)
  have hnn : 0 ≤ ⌊q * 10⌋ := Int.floor_nonneg.mpr (by positivity)
  omega

lemma fracDigits_lt10 : ∀ (fuel : Nat) (q : ℚ), 0 ≤ q → q < 1 →
    ∀ d ∈ fracDigits fuel q, d < 10 := by
  intro fuel
  induction fuel with
  | zero =>
    intro q _ _ d hd
    cases hd
  | succ fuel ih =>
    intro q h0 h1 d hd
    rw [fracDigits] at hd
    by_cases hq : q = 0
    · rw [if_pos hq] at hd
      cases hd
    · rw [if_neg hq] at hd
      rcases List.mem_cons.mp hd with hd | hd
      · rw [hd]
        exact floorDigit_lt10 h0 h1
      · have h0' : (0:ℚ) ≤ q * 10 - ⌊q * 10⌋ := Int.fract_nonneg (q * 10)
        have h1' : q * 10 - ⌊q * 10⌋ < 1 := Int.fract_lt_one (q * 10)
        exact ih _ h0' h1' d hd

lemma fracValue_fracDigits : ∀ (fuel : Nat) (q : ℚ), 0 ≤ q → q < 1 →
    (∃ z : ℤ, (10:ℚ) ^ fuel * q = z) →
    fracValue ((fracDigits fuel q).map digitChar) = q := by
  intro fuel
  induction fuel with
  | zero =>
    rintro q h0 h1 ⟨z, hz⟩
    rw [pow_zero, one_mul] at hz
    have hz0 : z = 0 := by
      have ha : (0:ℤ) ≤ z := by exact_mod_cast hz ▸ h0
      have hb : z < 1 := by exact_mod_cast hz ▸ h1
      omega
    rw [fracDigits]
    simp only [List.map_nil, fracValue, List.foldr_nil]
    rw [hz, hz0]
    norm_num
  | succ fuel ih =>
    rintro q h0 h1 ⟨z, hz⟩
    rw [fracDigits]
    by_cases hq : q = 0
    · rw [if_pos hq, hq]
      simp [fracValue]
    · rw [if_neg hq]
      have hd10 : (⌊q * 10⌋).toNat < 10 := floorDigit_lt10 h0 h1
      have hnn : (0:ℤ) ≤ ⌊q * 10⌋ := Int.floor_nonneg.mpr (by positivity)
      have h0' : (0:ℚ) ≤ q * 10 - ⌊q * 10⌋ := Int.fract_nonneg (q * 10)
      have h1' : q * 10 - ⌊q * 10⌋ < 1 := Int.fract_lt_one (q * 10)
      have hz' : ∃ z' : ℤ, (10:ℚ) ^ fuel * (q * 10 - ⌊q * 10⌋) = z' := by
        refine ⟨z - 10 ^ fuel * ⌊q * 10⌋, ?_⟩
        push_cast
        rw [← hz]
        ring
      simp only [List.map_cons, fracValue, List.foldr_cons]
      have hrest := ih _ h0' h1' hz'
      simp only [fracValue] at hrest
      rw [hrest, charVal_digitChar hd10]
      have hnc : ((⌊q * 10⌋.toNat : ℕ) : ℚ) = ((⌊q * 10⌋ : ℤ) : ℚ) := by
        exact_mod_cast Int.toNat_of_nonneg hnn
      rw [hnc]
      ring

lemma parseFloat_ratToChars (q : ℚ) (h0 : 0 ≤ q)
    (hz : ∃ z : ℤ, (10:ℚ) ^ fracFuel * q = z) :
    jsParseFloatChars (ratToChars q) = q := by
  have hfl : (0:ℤ) ≤ ⌊q⌋ := Int.floor_nonneg.mpr h0
  have hcast : ((⌊q⌋.toNat : ℕ) : ℚ) = ((⌊q⌋ : ℤ) : ℚ) := by
    exact_mod_cast Int.toNat_of_nonneg hfl
  unfold ratToChars
  by_cases hfr : q - ⌊q⌋ = 0
  · rw [if_pos hfr]
    unfold jsParseFloatChars
    rw [List.takeWhile_eq_self_iff.mpr natToChars_digits,
      List.dropWhile_eq_nil_iff.mpr natToChars_digits]
    show (digitsToNat (natToChars (⌊q⌋).toNat) : ℚ) = q
    rw [digitsToNat_natToChars, hcast]
    linarith
  · rw [if_neg hfr]
    obtain ⟨htake, hdrop⟩ := takeWhile_append_stop natToChars_digits
      (by decide : Char.isDigit '.' = false)
    unfold jsParseFloatChars
    rw [htake, hdrop]
    show (digitsToNat (natToChars (⌊q⌋).toNat) : ℚ) +
        fracValue (((fracDigits fracFuel (q - ⌊q⌋)).map
          digitChar).takeWhile Char.isDigit) = q
    have hfrdig : ∀ c ∈ (fracDigits fracFuel (q - ⌊q⌋)).map digitChar,
        c.isDigit = true := by
      intro c hc
      obtain ⟨d, hd, rfl⟩ := List.mem_map.mp hc
      exact isDigit_digitChar
        (fracDigits_lt10 fracFuel (q - ⌊q⌋) (Int.fract_nonneg q)
          (Int.fract_lt_one q) d hd)
    rw [List.takeWhile_eq_self_iff.mpr hfrdig]
    have hz' : ∃ z' : ℤ, (10:ℚ) ^ fracFuel * (q - ⌊q⌋) = z' := by
      obtain ⟨z, hzz⟩ := hz
      refine ⟨z - 10 ^ fracFuel * ⌊q⌋, ?_⟩
      push_cast
      rw [← hzz]
      ring
    rw [fracValue_fracDigits fracFuel (q - ⌊q⌋) (Int.fract_nonneg q)
      (Int.fract_lt_one q) hz']
    rw [digitsToNat_natToChars, hcast]
    ring

lemma jsStringOfBool_beq (b : Bool) : (jsStringOfBool b == "true") = b := by
  cases b <;> decide

lemma jsParseIntStr_ofNat (n : Nat) :
    jsParseIntStr (jsStringOfNat n) = some n :=
  jsParseInt_natToChars n

lemma jsParseFloatStr_ofRat (q : ℚ) (h0 : 0 ≤ q)
    (hz : ∃ z : ℤ, (10:ℚ) ^ fracFuel * q = z) :
    jsParseFloatStr (jsStringOfRat q) = q :=
  parseFloat_ratToChars q h0 hz

/-- C8 counterexample: saving a snapshot whose shortcut is the empty string
(the value the settings dialog stores to disable the boss key) and loading
it back over the defaults does not reconstruct the snapshot — the truthy
guard `if (savedShortcut)` in `loadSettings_` skips the empty string, so
the reloaded shortcut is the pre-existing default, not the saved one. -/
theorem pip_C8_cex :
    loadSettings (saveSettings sEmptyShortcut) defaultSettings ≠
      sEmptyShortcut := by
  intro h
  have h2 := congrArg Settings.shortcut h
  have h3 : (loadSettings (saveSettings sEmptyShortcut)
      defaultSettings).shortcut = "Alt+P" := rfl
  rw [h3] at h2
  exact absurd h2 (by decide)

/-- C8 amended: the save-then-load round trip reconstructs an identical
snapshot for every settings snapshot in the declared domains whose shortcut
is nonempty (the position, an enumeration value, is never empty; opacity is
a nonnegative finite decimal, as every stored number is); with an empty
shortcut the loaded snapshot keeps the loader's pre-existing shortcut and
every other field still round-trips. -/
theorem pip_C8 :
    ∀ (s cur : Settings), s.shortcut ≠ "" → s.position ≠ "" →
      0 ≤ s.opacity → (∃ z : ℤ, (10:ℚ) ^ fracFuel * s.opacity = z) →
      loadSettings (saveSettings s) cur = s := by
  intro s cur hsc hpos hop hz
  obtain ⟨ap, ad, bl, pos, md, mw, mh, si, op, sc, hb⟩ := s
  unfold loadSettings saveSettings
  rw [Settings.mk.injEq]
  refine ⟨?_, ?_, rfl, ?_, ?_, ?_, ?_, ?_, ?_, ?_, ?_⟩
  · exact jsStringOfBool_beq ap
  · show (jsParseIntStr (jsStringOfNat ad)).getD 0 = ad
    rw [jsParseIntStr_ofNat]
    rfl
  · exact if_neg hpos
  · show (jsParseIntStr (jsStringOfNat md)).getD 0 = md
    rw [jsParseIntStr_ofNat]
    rfl
  · show (jsParseIntStr (jsStringOfNat mw)).getD 0 = mw
    rw [jsParseIntStr_ofNat]
    rfl
  · show (jsParseIntStr (jsStringOfNat mh)).getD 0 = mh
    rw [jsParseIntStr_ofNat]
    rfl
  · show (jsParseIntStr (jsStringOfNat si)).getD 0 = si
    rw [jsParseIntStr_ofNat]
    rfl
  · exact jsParseFloatStr_ofRat op hop hz
  · exact if_neg hsc
  · exact jsStringOfBool_beq hb

/-- C8 witness: the full round trip carried out on the default snapshot. -/
theorem pip_C8_witness :
    loadSettings (saveSettings defaultSettings) defaultSettings =
      defaultSettings :=
  pip_C8 defaultSettings defaultSettings (by decide) (by decide)
    (by norm_num [defaultSettings])
    ⟨7 * 10 ^ 31, by norm_num [defaultSettings, fracFuel]⟩

end PnP
